import Mathlib

/-!
Shallow embedding of `capytaine/symmetries.py`: symmetric composite bodies
(reflection and translation symmetry) and their symmetry-accelerated
influence-matrix assembly, with proofs of the specified properties.

Machine floating-point values are not interpreted: the kernel evaluation is an
abstract function producing entries in an arbitrary type `α`, and the
`np.complex64` storage cast is an abstract function `trunc : α → β`.
-/

namespace Capytaine

/-- A symmetry plane: a normal vector and a scalar offset
(`meshmagick.geometry.Plane`). -/
structure Plane where
  normal : ℚ × ℚ × ℚ
  scalar : ℚ
deriving DecidableEq

/-- Syntactic model of a panel mesh: a base mesh with a given face count,
possibly transformed by the external pure geometric transforms
(`FloatingBody.mirror`, `FloatingBody.translate`).  Both transforms map faces
to faces one-to-one, hence keep the face count. -/
inductive Mesh where
  | base (meshId : Nat) (faces : Nat)
  | mirroredAcross (plane : Plane) (m : Mesh)
  | translatedBy (v : List ℚ) (m : Mesh)
deriving DecidableEq

/-- Number of faces of a mesh; the geometric transforms keep it. -/
def Mesh.nbFaces : Mesh → Nat
  | .base _ n => n
  | .mirroredAcross _ m => m.nbFaces
  | .translatedBy _ m => m.nbFaces

/-- State of a `capytaine.bodies.FloatingBody` relevant to `symmetries.py`:
a name, a mesh, a mapping from degree-of-freedom name to per-face motion
vector (a Python `dict`, i.e. an insertion-ordered association list), and the
`nb_matrices_to_keep` retention-budget hint. -/
structure FloatingBody where
  name : String
  mesh : Mesh
  dofs : List (String × List ℚ)
  nb_matrices_to_keep : Nat
deriving DecidableEq

instance : Inhabited FloatingBody :=
  ⟨{ name := "", mesh := .base 0 0, dofs := [], nb_matrices_to_keep := 1 }⟩

def FloatingBody.nb_faces (b : FloatingBody) : Nat := b.mesh.nbFaces

/-- `body.copy()` — a fresh copy with the same state. -/
def FloatingBody.copy (b : FloatingBody) : FloatingBody := b

/-- `body.mirror(plane)` — external pure geometric transform. -/
def FloatingBody.mirror (b : FloatingBody) (p : Plane) : FloatingBody :=
  { b with mesh := .mirroredAcross p b.mesh }

/-- `body.translate(v)` — external pure geometric transform. -/
def FloatingBody.translate (b : FloatingBody) (v : List ℚ) : FloatingBody :=
  { b with mesh := .translatedBy v b.mesh }

/-- State of a `CollectionOfFloatingBodies` relevant here: the ordered
sequence of sub-bodies, a name, and the combined degree-of-freedom mapping. -/
structure SymmetricBody where
  subbodies : List FloatingBody
  name : String
  dofs : List (String × List ℚ)
deriving DecidableEq

instance : Inhabited SymmetricBody := ⟨{ subbodies := [], name := "", dofs := [] }⟩

/-- Modelled from the spec: the composite's total face count is the sum of its
generators' face counts (§3; `CollectionOfFloatingBodies.nb_faces` itself is
in `capytaine/bodies_collection.py`, which is not under src/). -/
def SymmetricBody.nb_faces (s : SymmetricBody) : Nat :=
  (s.subbodies.map FloatingBody.nb_faces).sum

/-- Errors raised by the code of `symmetries.py`. -/
inductive SymmetryError where
  /-- Construction-time argument-check failure (the spec's
  `InvalidSymmetryArgument`; realized in the source by `assert`). -/
  | invalidSymmetryArgument
deriving DecidableEq

/-- Python runtime errors reached by `build_matrices`. -/
inductive PyError where
  /-- `NameError`/`UnboundLocalError`: line 170 references the local name
  `body`, which is never assigned on the fallback branch. -/
  | nameError_body
deriving DecidableEq

/-- The `nb_repetitions` argument as received from Python: either an `int`
or a value of some other type (for the `isinstance(nb_repetitions, int)`
check at line 106). -/
inductive RepCount where
  | int (n : Int)
  | notAnInt
deriving DecidableEq

/-- `ReflectionSymmetry.__init__(half, plane)` (lines 33-59).  The Python
constructor mutates `half` in place (`half.nb_matrices_to_keep *= 2`); the
returned pair is (the composite, the final state of the caller's `half`). -/
def ReflectionSymmetry_init (half0 : FloatingBody) (plane : Plane) :
    SymmetricBody × FloatingBody :=
  -- line 46: half.nb_matrices_to_keep *= 2
  let half := { half0 with nb_matrices_to_keep := half0.nb_matrices_to_keep * 2 }
  -- lines 48-50: other_half = half.copy(); other_half.mirror(plane); rename
  let other_half := half.copy
  let other_half := other_half.mirror plane
  let other_half := { other_half with name := "mirror_of_" ++ half.name }
  -- lines 52-59: collection [half, other_half], composite name, mirrored dofs
  ({ subbodies := [half, other_half]
     name := "mirrored_" ++ half.name
     dofs := half.dofs.map fun nd => ("mirrored_" ++ nd.1, nd.2 ++ nd.2) },
   half)

/-- Body of the loop at lines 115-118: the `i`-th translated copy of the
slice (`nb` is the repetition count, already applied to the slice's
retention budget at line 112). -/
def translatedCopy (body_slice : FloatingBody) (translation : List ℚ)
    (nb i : Nat) : FloatingBody :=
  -- line 115: new_slice = body_slice.copy()
  let new_slice := body_slice.copy
  -- line 116: new_slice.translate(i*translation)
  let new_slice := new_slice.translate (translation.map fun x => (i : ℚ) * x)
  -- lines 117-118: budget scaling and derived name
  { new_slice with
    nb_matrices_to_keep := new_slice.nb_matrices_to_keep * (nb + 1)
    name := "repetition_" ++ toString i ++ "_of_" ++ body_slice.name }

/-- `TranslationalSymmetry.__init__(body_slice, translation, nb_repetitions)`
(lines 93-128).  The Python constructor mutates `body_slice` in place
(`body_slice.nb_matrices_to_keep *= nb_repetitions`, after all argument
checks); the second component of the result is the final state of the
caller's `body_slice`.  A failed `assert` is modelled as the spec's
`InvalidSymmetryArgument` error. -/
def TranslationalSymmetry_init (body_slice0 : FloatingBody) (translation : List ℚ)
    (nb_repetitions : RepCount) :
    Except SymmetryError SymmetricBody × FloatingBody :=
  match nb_repetitions with
  | .notAnInt => (.error .invalidSymmetryArgument, body_slice0)  -- line 106
  | .int n =>
    if n < 1 then (.error .invalidSymmetryArgument, body_slice0)  -- line 107
    else if translation.length ≠ 3 then
      (.error .invalidSymmetryArgument, body_slice0)  -- line 110
    else
      let nb := n.toNat
      -- line 112: body_slice.nb_matrices_to_keep *= nb_repetitions
      let body_slice :=
        { body_slice0 with nb_matrices_to_keep := body_slice0.nb_matrices_to_keep * nb }
      -- lines 113-119: slices = [body_slice]; for i in range(1, nb+1): append copy
      let slices := (List.range' 1 nb).foldl
        (fun acc i => acc ++ [translatedCopy body_slice translation nb i])
        [body_slice]
      -- lines 121-128: collection, composite name, translated dofs
      (.ok
        { subbodies := slices
          name := "repeated_" ++ body_slice.name
          -- line 128: np.concatenate([dof]*nb_repetitions)
          dofs := body_slice.dofs.map fun nd =>
            ("translated_" ++ nd.1, (List.replicate nb nd.2).flatten) },
       body_slice)

/-- The state of the slice after the in-place update
`body_slice.nb_matrices_to_keep *= nb` (line 112; line 46 with `nb = 2`). -/
def mutatedSlice (s : FloatingBody) (nb : Nat) : FloatingBody :=
  { s with nb_matrices_to_keep := s.nb_matrices_to_keep * nb }

/-! ### Matrices and blocks -/

/-- Dense matrices as total functions on indices; entries outside the
allocated shape are irrelevant. -/
abbrev Mat (γ : Type) := Nat → Nat → γ

/-- An index block: rows `[r0, r1)` by columns `[c0, c1)` — a pair of slices. -/
structure Blk where
  r0 : Nat
  r1 : Nat
  c0 : Nat
  c1 : Nat
deriving DecidableEq

/-- Membership of an index pair in a block. -/
def Blk.mem (b : Blk) (i j : Nat) : Prop :=
  b.r0 ≤ i ∧ i < b.r1 ∧ b.c0 ≤ j ∧ j < b.c1

instance Blk.memDecidable (b : Blk) (i j : Nat) : Decidable (b.mem i j) :=
  inferInstanceAs (Decidable (b.r0 ≤ i ∧ i < b.r1 ∧ b.c0 ≤ j ∧ j < b.c1))

/-- `M[blk] = f` for a fresh right-hand side `f`, indexed relative to the
block's corner. -/
def setBlock {γ : Type} (M : Mat γ) (b : Blk) (f : Mat γ) : Mat γ :=
  fun i j => if b.mem i j then f (i - b.r0) (j - b.c0) else M i j

/-- `M[dst] = M[src]` — numpy slice-to-slice assignment, right-hand side read
out of the matrix before the write. -/
def copyBlock {γ : Type} (M : Mat γ) (dst src : Blk) : Mat γ :=
  fun i j =>
    if dst.mem i j then M (src.r0 + (i - dst.r0)) (src.c0 + (j - dst.c0)) else M i j

/-- `list(accumulate(chain([0], xs)))` (line 149): running sums, starting
from the given value. -/
def accumulate0 : Nat → List Nat → List Nat
  | acc, [] => [acc]
  | acc, x :: xs => acc :: accumulate0 (acc + x) xs

/-- `zip(l, l[1:])` (lines 151-153). -/
def adjacentPairs (l : List Nat) : List (Nat × Nat) := l.zip l.tail

/-- The `m × m` grid of index blocks built at lines 150-155 from the running
face-count sums. -/
def matrixBlocks (offsets : List Nat) : List (List Blk) :=
  (adjacentPairs offsets).map fun p =>
    (adjacentPairs offsets).map fun q => ⟨p.1, p.2, q.1, q.2⟩

/-- `abs(j - i)` for Python ints represented as naturals (line 164-165). -/
def absDiff (j i : Nat) : Nat := (j - i) + (i - j)

/-- The block `(i, j)` of an `m × m` grid of uniformly `f`-sized blocks:
rows `[i*f, i*f+f)` by columns `[j*f, j*f+f)`.  This is the value of
`matrixBlocks[i][j]` when all generators have `f` faces. -/
def uBlk (f i j : Nat) : Blk := ⟨i * f, i * f + f, j * f, j * f + f⟩

section Build

variable {α β Cfg : Type}
variable (kernel : FloatingBody → FloatingBody → Cfg → Mat α × Mat α)
variable (trunc : α → β) (emptyVal : β)

/-! `kernel` is the external sub-body-pair evaluation
(`FloatingBody.build_matrices` of a single sub-body), deterministic for fixed
inputs and options `cfg : Cfg` (the `**kwargs`).  It produces a pair (S, V) of
matrices with entries in its native numeric type `α`; storing an entry into
the `np.complex64` result arrays applies the cast `trunc : α → β`.  `emptyVal`
is the arbitrary content of `np.empty` cells.  Besides the matrices, the
assembly functions below also return the sequence of kernel evaluations
performed, in call order, to state the evaluation-count properties. -/

/-- Modelled from the spec: `CollectionOfFloatingBodies.build_matrices` (the
generic composite-body assembly, `capytaine/bodies_collection.py`, not under
src/).  Per §2/§4.4 it fills every (generator of self, generator of other)
block by one kernel evaluation, without reuse, applying the same precision
truncation as the accelerated paths. -/
def genericBuildMatrices (selfBodies otherBodies : List FloatingBody) (cfg : Cfg) :
    (Mat β × Mat β) × List (FloatingBody × FloatingBody) :=
  let rowBlocks := adjacentPairs (accumulate0 0 (selfBodies.map FloatingBody.nb_faces))
  let colBlocks := adjacentPairs (accumulate0 0 (otherBodies.map FloatingBody.nb_faces))
  (rowBlocks.zip selfBodies).foldl
    (fun acc rb =>
      (colBlocks.zip otherBodies).foldl
        (fun acc cb =>
          let K := kernel rb.2 cb.2 cfg
          let blk : Blk := ⟨rb.1.1, rb.1.2, cb.1.1, cb.1.2⟩
          ((setBlock acc.1.1 blk fun p q => trunc (K.1 p q),
            setBlock acc.1.2 blk fun p q => trunc (K.2 p q)),
           acc.2 ++ [(rb.2, cb.2)]))
        acc)
    ((fun _ _ => emptyVal, fun _ _ => emptyVal), [])

/-- The four quarter blocks of lines 71-74 (`h = self.nb_faces // 2`;
open-ended slices stop at the allocated size `nf`). -/
def reflTopLeft (nf : Nat) : Blk := ⟨0, nf / 2, 0, nf / 2⟩

def reflTopRight (nf : Nat) : Blk := ⟨0, nf / 2, nf / 2, nf⟩

def reflBottomLeft (nf : Nat) : Blk := ⟨nf / 2, nf, 0, nf / 2⟩

def reflBottomRight (nf : Nat) : Blk := ⟨nf / 2, nf, nf / 2, nf⟩

/-- The accelerated branch of `ReflectionSymmetry.build_matrices`
(lines 64-84); it only runs with `other_body == self`, so the allocated
shape is `(self.nb_faces, self.nb_faces)`. -/
def reflectionAccel (self : SymmetricBody) (cfg : Cfg) :
    (Mat β × Mat β) × List (FloatingBody × FloatingBody) :=
  let nf := self.nb_faces
  let g0 := self.subbodies.getD 0 default
  let g1 := self.subbodies.getD 1 default
  -- line 77: S[top_left], V[top_left] = subbodies[0].build_matrices(subbodies[0])
  let K00 := kernel g0 g0 cfg
  -- line 78: S[top_right], V[top_right] = subbodies[0].build_matrices(subbodies[1])
  let K01 := kernel g0 g1 cfg
  let S2 := setBlock (setBlock (fun _ _ => emptyVal) (reflTopLeft nf)
      fun p q => trunc (K00.1 p q)) (reflTopRight nf) fun p q => trunc (K01.1 p q)
  let V2 := setBlock (setBlock (fun _ _ => emptyVal) (reflTopLeft nf)
      fun p q => trunc (K00.2 p q)) (reflTopRight nf) fun p q => trunc (K01.2 p q)
  -- line 81: S[bottom_left], V[bottom_left] = S[top_right], V[top_right]
  let S3 := copyBlock S2 (reflBottomLeft nf) (reflTopRight nf)
  let V3 := copyBlock V2 (reflBottomLeft nf) (reflTopRight nf)
  -- line 82: S[bottom_right], V[bottom_right] = S[top_left], V[top_left]
  let S4 := copyBlock S3 (reflBottomRight nf) (reflTopLeft nf)
  let V4 := copyBlock V3 (reflBottomRight nf) (reflTopLeft nf)
  ((S4, V4), [(g0, g0), (g0, g1)])

/-- `ReflectionSymmetry.build_matrices(self, other_body,
force_full_computation=False, **kwargs)` (lines 61-87). -/
def reflectionBuildMatrices (self other : SymmetricBody)
    (force_full_computation : Bool) (cfg : Cfg) :
    (Mat β × Mat β) × List (FloatingBody × FloatingBody) :=
  if other = self ∧ force_full_computation = false then
    reflectionAccel kernel trunc emptyVal self cfg
  else
    -- line 87: CollectionOfFloatingBodies.build_matrices(self, other_body, **kwargs)
    genericBuildMatrices kernel trunc emptyVal self.subbodies other.subbodies cfg

/-- The loop at lines 157-159: fill the first row of blocks, one kernel
evaluation per generator. -/
def fillFirstRow (g0 : FloatingBody) (cfg : Cfg)
    (items : List (Blk × FloatingBody))
    (acc : (Mat β × Mat β) × List (FloatingBody × FloatingBody)) :
    (Mat β × Mat β) × List (FloatingBody × FloatingBody) :=
  items.foldl
    (fun acc bb =>
      let K := kernel g0 bb.2 cfg
      ((setBlock acc.1.1 bb.1 fun p q => trunc (K.1 p q),
        setBlock acc.1.2 bb.1 fun p q => trunc (K.2 p q)),
       acc.2 ++ [(g0, bb.2)]))
    acc

/-- The nested loops at lines 162-165: copy block `(0, abs(j-i))` into every
block `(i, j)` with `i ≥ 1`. -/
def copyRemainingRows (matrix_blocks : List (List Blk)) (SV : Mat β × Mat β) :
    Mat β × Mat β :=
  (List.range' 1 (matrix_blocks.length - 1)).foldl
    (fun SV i =>
      (List.range (matrix_blocks.getD i []).length).foldl
        (fun SV j =>
          let dst := (matrix_blocks.getD i []).getD j ⟨0, 0, 0, 0⟩
          let src := (matrix_blocks.getD 0 []).getD (absDiff j i) ⟨0, 0, 0, 0⟩
          (copyBlock SV.1 dst src, copyBlock SV.2 dst src))
        SV)
    SV

/-- The accelerated branch of `TranslationalSymmetry.build_matrices`
(lines 142-167); it only runs with `other_body == self`. -/
def translationAccel (self : SymmetricBody) (cfg : Cfg) :
    (Mat β × Mat β) × List (FloatingBody × FloatingBody) :=
  let S0 : Mat β := fun _ _ => emptyVal
  let V0 : Mat β := fun _ _ => emptyVal
  -- line 149: running sums of the generators' face counts
  let offsets := accumulate0 0 (self.subbodies.map FloatingBody.nb_faces)
  let blocks := matrixBlocks offsets
  -- lines 157-159
  let firstRow := fillFirstRow kernel trunc
    (self.subbodies.getD 0 default) cfg
    ((blocks.headD []).zip self.subbodies) ((S0, V0), [])
  -- lines 162-165
  (copyRemainingRows (β := β) blocks firstRow.1, firstRow.2)

/-- `TranslationalSymmetry.build_matrices(self, other_body,
force_full_computation=False, **kwargs)` (lines 130-170).  On the fallback
branch, line 170 reads the local name `body`, which is only ever assigned
inside the accelerated branch's loop: the branch raises
`NameError`/`UnboundLocalError` instead of delegating. -/
def translationBuildMatrices (self other : SymmetricBody)
    (force_full_computation : Bool) (cfg : Cfg) :
    Except PyError ((Mat β × Mat β) × List (FloatingBody × FloatingBody)) :=
  if other = self ∧ force_full_computation = false then
    .ok (translationAccel kernel trunc emptyVal self cfg)
  else
    .error .nameError_body

/-- One iteration of the inner copy loop (lines 164-165), in the uniform case
where all blocks have size `f`: copy block `(0, abs(j-i))` into block `(i, j)`. -/
def copyRowStep (f i : Nat) (SV : Mat β × Mat β) (j : Nat) : Mat β × Mat β :=
  (copyBlock SV.1 (uBlk f i j) (uBlk f 0 (absDiff j i)),
   copyBlock SV.2 (uBlk f i j) (uBlk f 0 (absDiff j i)))

/-- The copy loops of lines 162-165 rewritten over the uniform `m × m` grid of
`f`-sized blocks; `copyRemainingRows` reduces to this when all generators have
`f` faces. -/
def cleanCopy (f m : Nat) (SV : Mat β × Mat β) : Mat β × Mat β :=
  (List.range' 1 (m - 1)).foldl
    (fun SV i => (List.range m).foldl (copyRowStep f i) SV) SV

end Build

/-! ### Concrete instances (used by the witness statements) -/

/-- A concrete slice body with 2 faces and one degree of freedom. -/
def exSlice : FloatingBody :=
  { name := "slice", mesh := .base 0 2, dofs := [("heave", [1, 2])],
    nb_matrices_to_keep := 1 }

/-- A concrete half body with 2 faces and one degree of freedom. -/
def exHalf : FloatingBody :=
  { name := "half", mesh := .base 1 2, dofs := [("sway", [3, 4])],
    nb_matrices_to_keep := 1 }

def exPlane : Plane := { normal := (1, 0, 0), scalar := 0 }

def exVec : List ℚ := [1, 0, 0]

/-- The constructor call `TranslationalSymmetry(exSlice, exVec, 2)`. -/
def exInit : Except SymmetryError SymmetricBody × FloatingBody :=
  TranslationalSymmetry_init exSlice exVec (.int 2)

/-- The translation composite built by `exInit` (3 generators of 2 faces). -/
def exComp : SymmetricBody :=
  match exInit.1 with
  | .ok c => c
  | .error _ => default

/-- The reflection composite `ReflectionSymmetry(exHalf, exPlane)`. -/
def exReflComp : SymmetricBody := (ReflectionSymmetry_init exHalf exPlane).1

/-- A concrete deterministic kernel evaluation with integer entries. -/
def exKernel : FloatingBody → FloatingBody → Unit → Mat Int × Mat Int :=
  fun a b _ =>
    (fun i j => (a.nb_matrices_to_keep : Int) + 2 * i + 3 * j,
     fun i j => (b.nb_matrices_to_keep : Int) + 5 * i + 7 * j)

/-- A concrete storage cast. -/
def exTrunc : Int → Int := fun x => x

/-! ### General auxiliary lemmas -/

theorem foldl_append_singleton {γ δ : Type _} (g : γ → δ) :
    ∀ (l : List γ) (init : List δ),
      l.foldl (fun acc i => acc ++ [g i]) init = init ++ l.map g
  | [], init => by simp
  | x :: xs, init => by
    simp only [List.foldl_cons, List.map_cons]
    rw [foldl_append_singleton g xs (init ++ [g x])]
    simp

theorem foldlCongr {γ δ : Type _} :
    ∀ (l : List γ) (F G : δ → γ → δ) (init : δ),
      (∀ acc x, x ∈ l → F acc x = G acc x) →
      l.foldl F init = l.foldl G init
  | [], _, _, _, _ => rfl
  | x :: xs, F, G, init, h => by
    simp only [List.foldl_cons]
    rw [h init x (List.mem_cons_self x xs)]
    exact foldlCongr xs F G _ fun acc y hy => h acc y (List.mem_cons_of_mem x hy)

theorem accumulate0_shape (b : Nat) (l : List Nat) :
    accumulate0 b l = b :: (accumulate0 b l).tail := by
  cases l <;> rfl

theorem getD_map_range {γ : Type _} (g : Nat → γ) (m i : Nat) (d : γ) (h : i < m) :
    ((List.range m).map g).getD i d = g i := by
  rw [List.getD_eq_getElem _ _ (by simpa using h)]
  simp

theorem getD_cons_map_range' {γ : Type _} (x : γ) (g : Nat → γ) (nb i : Nat) (d : γ)
    (h1 : 1 ≤ i) (h2 : i ≤ nb) :
    (x :: (List.range' 1 nb).map g).getD i d = g i := by
  obtain ⟨i', rfl⟩ : ∃ i', i = i' + 1 := ⟨i - 1, by omega⟩
  simp only [List.getD_cons_succ]
  rw [List.getD_eq_getElem _ _ (by simp; omega)]
  rw [List.getElem_map]
  congr 1
  rw [List.getElem_range']
  omega

/-- A derived repetition name is never equal to the original name. -/
theorem repName_ne (i : Nat) (s : String) :
    "repetition_" ++ toString i ++ "_of_" ++ s ≠ s := by
  intro h
  have hlen := congrArg String.length h
  have h1 : String.length "repetition_" = 11 := rfl
  have h2 : String.length "_of_" = 4 := rfl
  simp only [String.length_append, h1, h2] at hlen
  omega

/-! ### Closed forms of the constructors -/

/-- Successful translation construction, written out. -/
theorem translation_init_eq (s : FloatingBody) (t : List ℚ) (n : Int)
    (h1 : 1 ≤ n) (h3 : t.length = 3) :
    TranslationalSymmetry_init s t (.int n) =
      (.ok
        { subbodies := mutatedSlice s n.toNat ::
            (List.range' 1 n.toNat).map (translatedCopy (mutatedSlice s n.toNat) t n.toNat)
          name := "repeated_" ++ s.name
          dofs := s.dofs.map fun nd =>
            ("translated_" ++ nd.1, (List.replicate n.toNat nd.2).flatten) },
       mutatedSlice s n.toNat) := by
  simp only [TranslationalSymmetry_init]
  rw [if_neg (by omega), if_neg (by simp [h3])]
  rw [foldl_append_singleton]
  rfl

/-- The face-count sum of a reflection composite, definitionally. -/
theorem reflection_nb_faces (half : FloatingBody) (plane : Plane) :
    (ReflectionSymmetry_init half plane).1.nb_faces
      = half.nb_faces + (half.nb_faces + 0) := rfl

section BuildProofs

variable {α β Cfg : Type}
variable (kernel : FloatingBody → FloatingBody → Cfg → Mat α × Mat α)
variable (trunc : α → β) (emptyVal : β)

/-- Entry-level closed form of the reflection accelerated path, for any
composite whose total face count is `f + f`: the four quadrants hold the
truncated entries of the two kernel evaluations. -/
theorem reflectionAccel_entries (self : SymmetricBody) (f : Nat)
    (hnf : self.nb_faces = f + f) (cfg : Cfg) (p q : Nat)
    (hp : p < f) (hq : q < f) :
    ((reflectionAccel kernel trunc emptyVal self cfg).1.1 p q
      = trunc ((kernel (self.subbodies.getD 0 default)
          (self.subbodies.getD 0 default) cfg).1 p q)) ∧
    ((reflectionAccel kernel trunc emptyVal self cfg).1.1 p (f + q)
      = trunc ((kernel (self.subbodies.getD 0 default)
          (self.subbodies.getD 1 default) cfg).1 p q)) ∧
    ((reflectionAccel kernel trunc emptyVal self cfg).1.1 (f + p) q
      = trunc ((kernel (self.subbodies.getD 0 default)
          (self.subbodies.getD 1 default) cfg).1 p q)) ∧
    ((reflectionAccel kernel trunc emptyVal self cfg).1.1 (f + p) (f + q)
      = trunc ((kernel (self.subbodies.getD 0 default)
          (self.subbodies.getD 0 default) cfg).1 p q)) ∧
    ((reflectionAccel kernel trunc emptyVal self cfg).1.2 p q
      = trunc ((kernel (self.subbodies.getD 0 default)
          (self.subbodies.getD 0 default) cfg).2 p q)) ∧
    ((reflectionAccel kernel trunc emptyVal self cfg).1.2 p (f + q)
      = trunc ((kernel (self.subbodies.getD 0 default)
          (self.subbodies.getD 1 default) cfg).2 p q)) ∧
    ((reflectionAccel kernel trunc emptyVal self cfg).1.2 (f + p) q
      = trunc ((kernel (self.subbodies.getD 0 default)
          (self.subbodies.getD 1 default) cfg).2 p q)) ∧
    ((reflectionAccel kernel trunc emptyVal self cfg).1.2 (f + p) (f + q)
      = trunc ((kernel (self.subbodies.getD 0 default)
          (self.subbodies.getD 0 default) cfg).2 p q)) := by
  have h2 : (f + f) / 2 = f := by omega
  simp only [reflectionAccel, hnf, h2, copyBlock, setBlock, Blk.mem,
    reflTopLeft, reflTopRight, reflBottomLeft, reflBottomRight,
    Nat.add_sub_cancel_left, Nat.sub_zero, Nat.zero_add, Nat.add_sub_cancel]
  repeat' apply And.intro
  all_goals split_ifs <;> first | rfl | omega

/-! ### Claim theorems (reflection side and constructors) -/

/-- C7: for every reflection composite, in the matrices (S, V) produced by
the accelerated path, the bottom-left quadrant equals the top-right quadrant
element-wise, and the bottom-right quadrant equals the top-left quadrant
element-wise, the quadrants splitting at half the composite's face count
(= the half body's face count). -/
theorem C7_reflection_block_copy (half : FloatingBody) (plane : Plane) (cfg : Cfg)
    (p q : Nat) (hp : p < half.nb_faces) (hq : q < half.nb_faces) :
    ((reflectionAccel kernel trunc emptyVal (ReflectionSymmetry_init half plane).1 cfg).1.1
        (half.nb_faces + p) q
      = (reflectionAccel kernel trunc emptyVal (ReflectionSymmetry_init half plane).1 cfg).1.1
        p (half.nb_faces + q)) ∧
    ((reflectionAccel kernel trunc emptyVal (ReflectionSymmetry_init half plane).1 cfg).1.1
        (half.nb_faces + p) (half.nb_faces + q)
      = (reflectionAccel kernel trunc emptyVal (ReflectionSymmetry_init half plane).1 cfg).1.1
        p q) ∧
    ((reflectionAccel kernel trunc emptyVal (ReflectionSymmetry_init half plane).1 cfg).1.2
        (half.nb_faces + p) q
      = (reflectionAccel kernel trunc emptyVal (ReflectionSymmetry_init half plane).1 cfg).1.2
        p (half.nb_faces + q)) ∧
    ((reflectionAccel kernel trunc emptyVal (ReflectionSymmetry_init half plane).1 cfg).1.2
        (half.nb_faces + p) (half.nb_faces + q)
      = (reflectionAccel kernel trunc emptyVal (ReflectionSymmetry_init half plane).1 cfg).1.2
        p q) := by
  obtain ⟨e1, e2, e3, e4, e5, e6, e7, e8⟩ :=
    reflectionAccel_entries kernel trunc emptyVal
      (ReflectionSymmetry_init half plane).1 half.nb_faces
      (by rw [reflection_nb_faces]; omega) cfg p q hp hq
  exact ⟨e3.trans e2.symm, e4.trans e1.symm, e7.trans e6.symm, e8.trans e5.symm⟩

/-- C10: every reflection composite has exactly 2 generators, each with the
half body's face count, so the total face count is even, integer halving is
exact, and the four quadrant ranges used by the accelerated path cover the
index square with no gap and no overlap. -/
theorem C10_reflection_partition (half : FloatingBody) (plane : Plane) :
    ∀ comp, comp = (ReflectionSymmetry_init half plane).1 →
    comp.subbodies.length = 2 ∧
    (∀ b ∈ comp.subbodies, b.nb_faces = half.nb_faces) ∧
    comp.nb_faces = 2 * half.nb_faces ∧
    comp.nb_faces / 2 = half.nb_faces ∧
    (∀ i j, i < comp.nb_faces → j < comp.nb_faces →
      (((reflTopLeft comp.nb_faces).mem i j ∨ (reflTopRight comp.nb_faces).mem i j ∨
        (reflBottomLeft comp.nb_faces).mem i j ∨ (reflBottomRight comp.nb_faces).mem i j) ∧
      ¬((reflTopLeft comp.nb_faces).mem i j ∧ (reflTopRight comp.nb_faces).mem i j) ∧
      ¬((reflTopLeft comp.nb_faces).mem i j ∧ (reflBottomLeft comp.nb_faces).mem i j) ∧
      ¬((reflTopLeft comp.nb_faces).mem i j ∧ (reflBottomRight comp.nb_faces).mem i j) ∧
      ¬((reflTopRight comp.nb_faces).mem i j ∧ (reflBottomLeft comp.nb_faces).mem i j) ∧
      ¬((reflTopRight comp.nb_faces).mem i j ∧ (reflBottomRight comp.nb_faces).mem i j) ∧
      ¬((reflBottomLeft comp.nb_faces).mem i j ∧ (reflBottomRight comp.nb_faces).mem i j))) := by
  rintro comp rfl
  have hnf := reflection_nb_faces half plane
  refine ⟨rfl, ?_, by omega, by omega, ?_⟩
  · intro b hb
    simp only [ReflectionSymmetry_init, List.mem_cons, List.not_mem_nil, or_false] at hb
    rcases hb with rfl | rfl <;> rfl
  · intro i j hi hj
    simp only [Blk.mem, reflTopLeft, reflTopRight, reflBottomLeft, reflBottomRight]
    omega

/-- C4: constructing a translation symmetry with a non-positive or
non-integer repetition count fails with `InvalidSymmetryArgument`, creates
no composite, and leaves the input sub-body (in particular its
`nb_matrices_to_keep` retention budget) unchanged. -/
theorem C4_invalid_repetition_count (s : FloatingBody) (t : List ℚ) (r : RepCount)
    (h : r = .notAnInt ∨ ∃ n : Int, r = .int n ∧ n < 1) :
    TranslationalSymmetry_init s t r = (.error .invalidSymmetryArgument, s) := by
  rcases h with rfl | ⟨n, rfl, hn⟩
  · rfl
  · simp only [TranslationalSymmetry_init]
    rw [if_pos hn]

theorem C4_invalid_repetition_count_witness :
    TranslationalSymmetry_init exSlice exVec (.int 0)
      = (.error .invalidSymmetryArgument, exSlice) :=
  C4_invalid_repetition_count exSlice exVec (.int 0) (Or.inr ⟨0, rfl, by decide⟩)

/-- C1 (failing side of the claimed equivalence): calling
`build_matrices(B, B, force_full_computation=True)` on a translation
composite does not reach the generic assembly at all — line 170 reads the
undefined local name `body` and raises `NameError`, so no fallback matrices
exist to compare with the accelerated ones. -/
theorem C1_translation_fallback_raises (self other : SymmetricBody) (cfg : Cfg) :
    translationBuildMatrices kernel trunc emptyVal self other true cfg
      = .error .nameError_body := by
  simp only [translationBuildMatrices]
  rw [if_neg (by simp)]

/-- C2: whenever the target body is not the composite itself or
`force_full_computation` is set, `TranslationalSymmetry.build_matrices` does
not delegate to the generic assembly on `other_body`: it evaluates the
undefined name `body` and raises `NameError`. -/
theorem C2_fallback_delegation_raises (self other : SymmetricBody)
    (force : Bool) (cfg : Cfg) (h : ¬(other = self ∧ force = false)) :
    translationBuildMatrices kernel trunc emptyVal self other force cfg
      = .error .nameError_body := by
  simp only [translationBuildMatrices]
  rw [if_neg h]

/-- C3 (failing evaluation): for the concrete slice with a dof vector of
length 2 and `nb_repetitions = 2`, the composite has 3 generators but the
stored dof vector has `2 × 2 = 4` entries, not `3 × 2 = 6` as claimed. -/
theorem C3_dof_replication_failing_eval :
    exInit.1 = .ok exComp ∧
    exComp.subbodies.length = 3 ∧
    (exSlice.dofs.getD 0 ("", [])).2.length = 2 ∧
    (exComp.dofs.getD 0 ("", [])).2.length = 4 ∧
    exComp.subbodies.length * (exSlice.dofs.getD 0 ("", [])).2.length = 6 := by
  refine ⟨rfl, rfl, rfl, rfl, rfl⟩

/-- C8: a successful translation construction yields the generator sequence
`[slice, copy_1, …, copy_n]` in that order, where `copy_i` is a copy of the
slice translated by `i` times the displacement vector, carrying a derived
name distinct from the slice's. -/
theorem C8_translation_generator_sequence (s : FloatingBody) (t : List ℚ) (n : Int)
    (h1 : 1 ≤ n) (h3 : t.length = 3) :
    ∀ comp rest, TranslationalSymmetry_init s t (.int n) = (.ok comp, rest) →
    comp.subbodies.length = n.toNat + 1 ∧
    comp.subbodies.getD 0 default = mutatedSlice s n.toNat ∧
    (mutatedSlice s n.toNat).name = s.name ∧
    (mutatedSlice s n.toNat).mesh = s.mesh ∧
    (mutatedSlice s n.toNat).dofs = s.dofs ∧
    (∀ i, 1 ≤ i → i ≤ n.toNat →
      (comp.subbodies.getD i default).mesh
          = Mesh.translatedBy (t.map fun x => (i : ℚ) * x) s.mesh ∧
      (comp.subbodies.getD i default).dofs = s.dofs ∧
      (comp.subbodies.getD i default).name
          = "repetition_" ++ toString i ++ "_of_" ++ s.name ∧
      (comp.subbodies.getD i default).name ≠ s.name) := by
  intro comp rest h
  rw [translation_init_eq s t n h1 h3] at h
  injection h with hok hrest
  injection hok with hcomp
  subst hcomp
  refine ⟨by simp, rfl, rfl, rfl, rfl, ?_⟩
  intro i hi1 hi2
  rw [getD_cons_map_range' _ _ n.toNat i default hi1 hi2]
  exact ⟨rfl, rfl, rfl, repName_ne i s.name⟩

/-! ### The translation accelerated path: block structure lemmas -/

theorem accumulate0_length (a : Nat) (l : List Nat) :
    (accumulate0 a l).length = l.length + 1 := by
  induction l generalizing a with
  | nil => rfl
  | cons x xs ih => simp [accumulate0, ih]

theorem adjacentPairs_length (l : List Nat) :
    (adjacentPairs l).length = l.length - 1 := by
  unfold adjacentPairs
  rw [List.length_zip, List.length_tail]
  omega

theorem adjacentPairs_cons_cons (a b : Nat) (t : List Nat) :
    adjacentPairs (a :: b :: t) = (a, b) :: adjacentPairs (b :: t) := rfl

theorem mulf_le {x y : Nat} (f : Nat) (h : x ≤ y) : x * f ≤ y * f :=
  Nat.mul_le_mul_right f h

/-- Closed form of the running face-count sums' adjacent pairs when all
generators have `f` faces. -/
theorem adjacentPairs_accumulate0 {f : Nat} :
    ∀ (L : List FloatingBody) (a : Nat), (∀ b ∈ L, b.nb_faces = f) →
      adjacentPairs (accumulate0 a (L.map FloatingBody.nb_faces))
        = (List.range L.length).map fun k => (a + k * f, a + k * f + f)
  | [], _, _ => rfl
  | x :: xs, a, hf => by
    have hx : x.nb_faces = f := hf x (List.mem_cons_self x xs)
    have hxs : ∀ b ∈ xs, b.nb_faces = f := fun b hb => hf b (List.mem_cons_of_mem x hb)
    have ih := adjacentPairs_accumulate0 xs (a + f) hxs
    have hstep : accumulate0 a ((x :: xs).map FloatingBody.nb_faces)
        = a :: accumulate0 (a + f) (xs.map FloatingBody.nb_faces) := by
      simp [accumulate0, hx]
    rw [hstep, accumulate0_shape (a + f), adjacentPairs_cons_cons,
      ← accumulate0_shape (a + f), ih]
    rw [List.length_cons, List.range_succ_eq_map, List.map_cons, List.map_map]
    congr 1
    · simp
    · apply List.map_congr_left
      intro k _
      simp only [Function.comp_apply, Prod.mk.injEq, Nat.succ_mul]
      omega

/-- Closed form of the `m × m` block grid when all generators have `f`
faces. -/
theorem matrixBlocks_uniform {f : Nat} (L : List FloatingBody)
    (hf : ∀ b ∈ L, b.nb_faces = f) :
    matrixBlocks (accumulate0 0 (L.map FloatingBody.nb_faces))
      = (List.range L.length).map fun i =>
          (List.range L.length).map fun j => uBlk f i j := by
  unfold matrixBlocks
  rw [adjacentPairs_accumulate0 L 0 hf, List.map_map]
  apply List.map_congr_left
  intro i _
  simp only [Function.comp_apply, List.map_map]
  apply List.map_congr_left
  intro j _
  simp [uBlk, Function.comp]

theorem fillFirstRow_cons (g0 : FloatingBody) (cfg : Cfg)
    (bb : Blk × FloatingBody) (items : List (Blk × FloatingBody))
    (acc : (Mat β × Mat β) × List (FloatingBody × FloatingBody)) :
    fillFirstRow kernel trunc g0 cfg (bb :: items) acc
      = fillFirstRow kernel trunc g0 cfg items
          ((setBlock acc.1.1 bb.1 fun p q => trunc ((kernel g0 bb.2 cfg).1 p q),
            setBlock acc.1.2 bb.1 fun p q => trunc ((kernel g0 bb.2 cfg).2 p q)),
           acc.2 ++ [(g0, bb.2)]) := rfl

theorem fillFirstRow_log (g0 : FloatingBody) (cfg : Cfg) :
    ∀ (items : List (Blk × FloatingBody))
      (acc : (Mat β × Mat β) × List (FloatingBody × FloatingBody)),
      (fillFirstRow kernel trunc g0 cfg items acc).2
        = acc.2 ++ items.map fun bb => (g0, bb.2)
  | [], acc => by simp [fillFirstRow]
  | bb :: items, acc => by
    rw [fillFirstRow_cons, fillFirstRow_log g0 cfg items]
    simp

theorem fillFirstRow_preserve (g0 : FloatingBody) (cfg : Cfg) :
    ∀ (items : List (Blk × FloatingBody))
      (acc : (Mat β × Mat β) × List (FloatingBody × FloatingBody)) (r c : Nat),
      (∀ bb ∈ items, ¬ bb.1.mem r c) →
      ((fillFirstRow kernel trunc g0 cfg items acc).1.1 r c = acc.1.1 r c ∧
       (fillFirstRow kernel trunc g0 cfg items acc).1.2 r c = acc.1.2 r c)
  | [], _, _, _, _ => ⟨rfl, rfl⟩
  | bb :: items, acc, r, c, h => by
    rw [fillFirstRow_cons]
    have h0 := h bb (List.mem_cons_self _ _)
    have ih := fillFirstRow_preserve g0 cfg items
      ((setBlock acc.1.1 bb.1 fun p q => trunc ((kernel g0 bb.2 cfg).1 p q),
        setBlock acc.1.2 bb.1 fun p q => trunc ((kernel g0 bb.2 cfg).2 p q)),
       acc.2 ++ [(g0, bb.2)]) r c
      fun b hb => h b (List.mem_cons_of_mem _ hb)
    refine ⟨ih.1.trans ?_, ih.2.trans ?_⟩ <;> simp [setBlock, h0]

/-- Entry-level closed form of the first-row filling loop: entry
`(p, (k+j)·f + q)` holds the truncated kernel entry for the `j`-th
generator. -/
theorem fillFirstRow_hit (f : Nat) (g0 : FloatingBody) (cfg : Cfg) :
    ∀ (L : List FloatingBody) (k : Nat)
      (acc : (Mat β × Mat β) × List (FloatingBody × FloatingBody))
      (j p q : Nat), j < L.length → p < f → q < f →
      ((fillFirstRow kernel trunc g0 cfg
          (((List.range L.length).map fun j' => uBlk f 0 (k + j')).zip L) acc).1.1
          p ((k + j) * f + q)
        = trunc ((kernel g0 (L.getD j default) cfg).1 p q)) ∧
      ((fillFirstRow kernel trunc g0 cfg
          (((List.range L.length).map fun j' => uBlk f 0 (k + j')).zip L) acc).1.2
          p ((k + j) * f + q)
        = trunc ((kernel g0 (L.getD j default) cfg).2 p q))
  | [], _, _, j, _, _, hj, _, _ => absurd hj (by simp)
  | x :: xs, k, acc, j, p, q, hj, hp, hq => by
    have hitems :
        ((List.range (x :: xs).length).map fun j' => uBlk f 0 (k + j')).zip (x :: xs)
          = (uBlk f 0 k, x) ::
            (((List.range xs.length).map fun j' => uBlk f 0 ((k + 1) + j')).zip xs) := by
      simp only [List.length_cons, List.range_succ_eq_map, List.map_cons, List.map_map,
        List.zip_cons_cons, Nat.add_zero]
      congr 1
      congr 1
      apply List.map_congr_left
      intro j' _
      simp only [Function.comp_apply]
      congr 1
      omega
    rw [hitems, fillFirstRow_cons]
    rcases j with _ | j'
    · -- j = 0: the value written by the first iteration survives the rest
      simp only [Nat.add_zero]
      have hrest : ∀ bb ∈ (((List.range xs.length).map
            fun j' => uBlk f 0 ((k + 1) + j')).zip xs),
          ¬ bb.1.mem p (k * f + q) := by
        rintro ⟨b1, b2⟩ hb
        obtain ⟨j', _, rfl⟩ := List.mem_map.mp (List.of_mem_zip hb).1
        simp only [uBlk, Blk.mem]
        have hle : (k + 1) * f ≤ ((k + 1) + j') * f := mulf_le f (by omega)
        have heq : (k + 1) * f = k * f + f := by rw [Nat.succ_mul]
        omega
      have hpres := fillFirstRow_preserve kernel trunc g0 cfg _
        ((setBlock acc.1.1 (uBlk f 0 k) fun p q => trunc ((kernel g0 x cfg).1 p q),
          setBlock acc.1.2 (uBlk f 0 k) fun p q => trunc ((kernel g0 x cfg).2 p q)),
         acc.2 ++ [(g0, x)]) p (k * f + q) hrest
      refine ⟨hpres.1.trans ?_, hpres.2.trans ?_⟩ <;>
      · simp only [setBlock, uBlk, Blk.mem, List.getD_cons_zero]
        rw [if_pos (by constructor <;> omega)]
        simp [Nat.add_sub_cancel_left]
    · -- j = j' + 1: handled by the remaining iterations
      have hidx : k + (j' + 1) = (k + 1) + j' := by omega
      rw [hidx]
      have ih := fillFirstRow_hit f g0 cfg xs (k + 1)
        ((setBlock acc.1.1 (uBlk f 0 k) fun p q => trunc ((kernel g0 x cfg).1 p q),
          setBlock acc.1.2 (uBlk f 0 k) fun p q => trunc ((kernel g0 x cfg).2 p q)),
         acc.2 ++ [(g0, x)]) j' p q (by simpa using hj) hp hq
      simpa [List.getD_cons_succ] using ih

/-! ### The translation accelerated path: copy loop lemmas -/

theorem innerCopy_preserve (f i : Nat) :
    ∀ (js : List Nat) (SV : Mat β × Mat β) (r c : Nat),
      (∀ j ∈ js, ¬ (uBlk f i j).mem r c) →
      ((js.foldl (copyRowStep f i) SV).1 r c = SV.1 r c ∧
       (js.foldl (copyRowStep f i) SV).2 r c = SV.2 r c)
  | [], _, _, _, _ => ⟨rfl, rfl⟩
  | j :: js, SV, r, c, h => by
    simp only [List.foldl_cons]
    have h0 := h j (List.mem_cons_self _ _)
    have ih := innerCopy_preserve f i js (copyRowStep f i SV j) r c
      fun j' hj' => h j' (List.mem_cons_of_mem _ hj')
    refine ⟨ih.1.trans ?_, ih.2.trans ?_⟩ <;> simp [copyRowStep, copyBlock, h0]

theorem outerCopy_preserve (f m : Nat) :
    ∀ (is : List Nat) (SV : Mat β × Mat β) (r c : Nat),
      (∀ i ∈ is, ¬ (i * f ≤ r ∧ r < i * f + f)) →
      (((is.foldl (fun SV i => (List.range m).foldl (copyRowStep f i) SV) SV).1 r c
          = SV.1 r c) ∧
       ((is.foldl (fun SV i => (List.range m).foldl (copyRowStep f i) SV) SV).2 r c
          = SV.2 r c))
  | [], _, _, _, _ => ⟨rfl, rfl⟩
  | i :: is, SV, r, c, h => by
    simp only [List.foldl_cons]
    have h0 := h i (List.mem_cons_self _ _)
    have hstep := innerCopy_preserve f i (List.range m) SV r c
      fun j _ => by simp only [uBlk, Blk.mem]; omega
    have ih := outerCopy_preserve f m is ((List.range m).foldl (copyRowStep f i) SV) r c
      fun i' hi' => h i' (List.mem_cons_of_mem _ hi')
    exact ⟨ih.1.trans hstep.1, ih.2.trans hstep.2⟩

/-- In the uniform case, the source's copy loops with their `getD` block
lookups reduce to the clean nested fold over the `m × m` grid. -/
theorem copyRemainingRows_uniform (f m : Nat) (SV : Mat β × Mat β) :
    copyRemainingRows
        ((List.range m).map fun i => (List.range m).map fun j => uBlk f i j) SV
      = cleanCopy f m SV := by
  unfold copyRemainingRows cleanCopy
  rw [List.length_map, List.length_range]
  apply foldlCongr
  intro SV' i hi
  have him : 1 ≤ i ∧ i < m := by
    have h := List.mem_range'_1.mp hi
    omega
  rw [getD_map_range _ m i [] him.2, List.length_map, List.length_range]
  apply foldlCongr
  intro SV'' j hj
  have hjm : j < m := List.mem_range.mp hj
  simp only [getD_map_range (fun j' => uBlk f i j') m j (Blk.mk 0 0 0 0) hjm,
    getD_map_range (fun i' => (List.range m).map fun j' => uBlk f i' j') m 0
      ([] : List Blk) (by omega : 0 < m),
    getD_map_range (fun j' => uBlk f 0 j') m (absDiff j i) (Blk.mk 0 0 0 0)
      (by simp only [absDiff]; omega : absDiff j i < m)]
  rfl

/-- Copy-loop closed form: block `(i, j)` of the copied matrix (for `i ≥ 1`)
holds the input matrix's block `(0, abs(j-i))`. -/
theorem cleanCopy_hit (f m : Nat) (SV : Mat β × Mat β) (i j p q : Nat)
    (hi1 : 1 ≤ i) (hi2 : i < m) (hj : j < m) (hp : p < f) (hq : q < f) :
    ((cleanCopy f m SV).1 (i * f + p) (j * f + q)
        = SV.1 p (absDiff j i * f + q)) ∧
    ((cleanCopy f m SV).2 (i * f + p) (j * f + q)
        = SV.2 p (absDiff j i * f + q)) := by
  -- decompose the outer loop range at iteration i
  have hrow : List.range' 1 (i - 1) ++ List.range' i (m - i) = List.range' 1 (m - 1) := by
    have h := List.range'_append 1 (i - 1) (m - i) 1
    have e1 : 1 + 1 * (i - 1) = i := by omega
    have e2 : (m - i) + (i - 1) = m - 1 := by omega
    rw [e1, e2] at h
    exact h
  have hmid : List.range' i (m - i) = i :: List.range' (i + 1) (m - i - 1) := by
    obtain ⟨d, hd⟩ : ∃ d, m - i = d + 1 := ⟨m - i - 1, by omega⟩
    rw [hd, List.range'_succ]
    simp
  -- decompose the inner loop range at iteration j
  have hcol : List.range' 0 j ++ List.range' j (m - j) = List.range' 0 m := by
    have h := List.range'_append 0 j (m - j) 1
    have e1 : 0 + 1 * j = j := by omega
    have e2 : (m - j) + j = m := by omega
    rw [e1, e2] at h
    exact h
  have hcolm : List.range m = List.range' 0 j ++ j :: List.range' (j + 1) (m - j - 1) := by
    obtain ⟨d, hd⟩ : ∃ d, m - j = d + 1 := ⟨m - j - 1, by omega⟩
    rw [List.range_eq_range', ← hcol, hd, List.range'_succ]
    simp
  -- preservation side conditions
  have hcondPost : ∀ i'' ∈ List.range' (i + 1) (m - i - 1),
      ¬ (i'' * f ≤ i * f + p ∧ i * f + p < i'' * f + f) := by
    intro i'' hi''
    have hmem := List.mem_range'_1.mp hi''
    have hle : (i + 1) * f ≤ i'' * f := mulf_le f (by omega)
    have hsm : (i + 1) * f = i * f + f := Nat.succ_mul i f
    omega
  have hcondPostJ : ∀ j'' ∈ List.range' (j + 1) (m - j - 1),
      ¬ (uBlk f i j'').mem (i * f + p) (j * f + q) := by
    intro j'' hj''
    have hmem := List.mem_range'_1.mp hj''
    have hle : (j + 1) * f ≤ j'' * f := mulf_le f (by omega)
    have hsm : (j + 1) * f = j * f + f := Nat.succ_mul j f
    simp only [uBlk, Blk.mem]
    omega
  have hcondPreJrow : ∀ j' ∈ List.range' 0 j,
      ¬ (uBlk f i j').mem p (absDiff j i * f + q) := by
    intro j' _
    have hle : 1 * f ≤ i * f := mulf_le f hi1
    simp only [uBlk, Blk.mem]
    omega
  have hcondPreJ : ∀ j' ∈ List.range' 0 j,
      ¬ (uBlk f i j').mem (i * f + p) (j * f + q) := by
    intro j' hj'
    have hmem := List.mem_range'_1.mp hj'
    have hle : (j' + 1) * f ≤ j * f := mulf_le f (by omega)
    have hsm : (j' + 1) * f = j' * f + f := Nat.succ_mul j' f
    simp only [uBlk, Blk.mem]
    omega
  have hcondPre : ∀ i' ∈ List.range' 1 (i - 1),
      ¬ (i' * f ≤ p ∧ p < i' * f + f) := by
    intro i' hi'
    have hmem := List.mem_range'_1.mp hi'
    have hle : 1 * f ≤ i' * f := mulf_le f (by omega)
    omega
  have hdst : (uBlk f i j).mem (i * f + p) (j * f + q) := by
    simp only [uBlk, Blk.mem]
    omega
  have e4 : (uBlk f 0 (absDiff j i)).r0 + (i * f + p - (uBlk f i j).r0) = p := by
    simp only [uBlk]
    omega
  have e5 : (uBlk f 0 (absDiff j i)).c0 + (j * f + q - (uBlk f i j).c0)
      = absDiff j i * f + q := by
    simp only [uBlk]
    omega
  have hmidfold : ∀ T : Mat β × Mat β,
      List.foldl (copyRowStep f i) T (List.range m)
        = List.foldl (copyRowStep f i)
            (copyRowStep f i (List.foldl (copyRowStep f i) T (List.range' 0 j)) j)
            (List.range' (j + 1) (m - j - 1)) := by
    intro T
    rw [hcolm, List.foldl_append, List.foldl_cons]
  unfold cleanCopy
  rw [← hrow, hmid]
  simp only [List.foldl_append, List.foldl_cons]
  rw [hmidfold]
  constructor
  · rw [(outerCopy_preserve f m (List.range' (i + 1) (m - i - 1)) _
        (i * f + p) (j * f + q) hcondPost).1]
    rw [(innerCopy_preserve f i (List.range' (j + 1) (m - j - 1)) _
        (i * f + p) (j * f + q) hcondPostJ).1]
    simp only [copyRowStep, copyBlock]
    rw [if_pos hdst, e4, e5]
    rw [(innerCopy_preserve f i (List.range' 0 j) _
        p (absDiff j i * f + q) hcondPreJrow).1]
    rw [(outerCopy_preserve f m (List.range' 1 (i - 1)) _
        p (absDiff j i * f + q) hcondPre).1]
  · rw [(outerCopy_preserve f m (List.range' (i + 1) (m - i - 1)) _
        (i * f + p) (j * f + q) hcondPost).2]
    rw [(innerCopy_preserve f i (List.range' (j + 1) (m - j - 1)) _
        (i * f + p) (j * f + q) hcondPostJ).2]
    simp only [copyRowStep, copyBlock]
    rw [if_pos hdst, e4, e5]
    rw [(innerCopy_preserve f i (List.range' 0 j) _
        p (absDiff j i * f + q) hcondPreJrow).2]
    rw [(outerCopy_preserve f m (List.range' 1 (i - 1)) _
        p (absDiff j i * f + q) hcondPre).2]

theorem headD_map_range {γ : Type _} (g : Nat → List γ) (m : Nat) (h : 0 < m) :
    ((List.range m).map g).headD [] = g 0 := by
  obtain ⟨m', rfl⟩ : ∃ m', m = m' + 1 := ⟨m - 1, by omega⟩
  rw [List.range_succ_eq_map]
  simp

theorem matrixBlocks_headD_length (l : List Nat) :
    ((matrixBlocks l).headD []).length = l.length - 1 := by
  unfold matrixBlocks
  cases hap : adjacentPairs l with
  | nil =>
    have h := adjacentPairs_length l
    rw [hap] at h
    simp only [List.length_nil] at h
    simp only [List.map_nil, List.headD_nil, List.length_nil]
    omega
  | cons a as =>
    have h := adjacentPairs_length l
    rw [hap] at h
    simp only [List.length_cons] at h
    simp only [List.map_cons, List.headD_cons, List.length_map, List.length_cons]
    omega

/-- Entry-level closed form of the translation accelerated path in the
uniform case: block `(i, j)` holds the truncated entries of the kernel
evaluation of (generator 0, generator `abs(j-i)`). -/
theorem translationAccel_entries (self : SymmetricBody) (f : Nat)
    (hf : ∀ b ∈ self.subbodies, b.nb_faces = f) (cfg : Cfg)
    (i j p q : Nat) (hi : i < self.subbodies.length)
    (hj : j < self.subbodies.length) (hp : p < f) (hq : q < f) :
    ((translationAccel kernel trunc emptyVal self cfg).1.1 (i * f + p) (j * f + q)
      = trunc ((kernel (self.subbodies.getD 0 default)
          (self.subbodies.getD (absDiff j i) default) cfg).1 p q)) ∧
    ((translationAccel kernel trunc emptyVal self cfg).1.2 (i * f + p) (j * f + q)
      = trunc ((kernel (self.subbodies.getD 0 default)
          (self.subbodies.getD (absDiff j i) default) cfg).2 p q)) := by
  have hm : 0 < self.subbodies.length := by omega
  simp only [translationAccel]
  rw [matrixBlocks_uniform self.subbodies hf]
  rw [headD_map_range _ _ hm]
  rw [copyRemainingRows_uniform f self.subbodies.length]
  set FR := fillFirstRow kernel trunc (self.subbodies.getD 0 default) cfg
    (((List.range self.subbodies.length).map fun j' => uBlk f 0 j').zip
      self.subbodies)
    ((fun _ _ => emptyVal, fun _ _ => emptyVal),
     ([] : List (FloatingBody × FloatingBody))) with hFR
  rcases Nat.eq_zero_or_pos i with rfl | hipos
  · -- block row 0: untouched by the copy loops, written by the first row fill
    have habs : absDiff j 0 = j := by simp [absDiff]
    rw [habs]
    have hit := fillFirstRow_hit kernel trunc f (self.subbodies.getD 0 default) cfg
      self.subbodies 0
      ((fun _ _ => emptyVal, fun _ _ => emptyVal), ([] : List (FloatingBody × FloatingBody)))
      j p q hj hp hq
    simp only [Nat.zero_add] at hit
    have hlow := outerCopy_preserve f self.subbodies.length
      (List.range' 1 (self.subbodies.length - 1)) FR.1 p (j * f + q)
      (fun i' hi' => by
        have hmem := List.mem_range'_1.mp hi'
        have hle : 1 * f ≤ i' * f := mulf_le f (by omega)
        omega)
    simp only [Nat.zero_mul, Nat.zero_add, cleanCopy]
    exact ⟨hlow.1.trans hit.1, hlow.2.trans hit.2⟩
  · -- block rows i ≥ 1: written by the copy loops from block (0, abs(j-i))
    have hd : absDiff j i < self.subbodies.length := by
      simp only [absDiff]
      omega
    have hcc := cleanCopy_hit f self.subbodies.length FR.1 i j p q hipos hi hj hp hq
    have hit := fillFirstRow_hit kernel trunc f (self.subbodies.getD 0 default) cfg
      self.subbodies 0
      ((fun _ _ => emptyVal, fun _ _ => emptyVal), ([] : List (FloatingBody × FloatingBody)))
      (absDiff j i) p q hd hp hq
    simp only [Nat.zero_add] at hit
    exact ⟨hcc.1.trans hit.1, hcc.2.trans hit.2⟩

/-- A successful translation construction yields generators that all carry
the slice's face count. -/
theorem translation_init_uniform_faces (s : FloatingBody) (t : List ℚ) (n : Int)
    (h1 : 1 ≤ n) (h3 : t.length = 3) :
    ∀ comp rest, TranslationalSymmetry_init s t (.int n) = (.ok comp, rest) →
    (∀ b ∈ comp.subbodies, b.nb_faces = s.nb_faces) ∧
    comp.subbodies.length = n.toNat + 1 := by
  intro comp rest h
  rw [translation_init_eq s t n h1 h3] at h
  injection h with hok hrest
  injection hok with hcomp
  subst hcomp
  constructor
  · intro b hb
    simp only [List.mem_cons, List.mem_map] at hb
    rcases hb with rfl | ⟨i, -, rfl⟩
    · rfl
    · rfl
  · simp

/-- C5: on the accelerated path (other is self, no override), the reflection
assembly performs exactly 2 kernel evaluations and the translation assembly
performs exactly one kernel evaluation per generator, for every composite
and every keyword configuration. -/
theorem C5_evaluation_counts :
    (∀ (self : SymmetricBody) (cfg : Cfg),
        reflectionBuildMatrices kernel trunc emptyVal self self false cfg
          = reflectionAccel kernel trunc emptyVal self cfg) ∧
    (∀ (self : SymmetricBody) (cfg : Cfg),
        (reflectionAccel kernel trunc emptyVal self cfg).2.length = 2) ∧
    (∀ (self : SymmetricBody) (cfg : Cfg),
        translationBuildMatrices kernel trunc emptyVal self self false cfg
          = .ok (translationAccel kernel trunc emptyVal self cfg)) ∧
    (∀ (self : SymmetricBody) (cfg : Cfg),
        (translationAccel kernel trunc emptyVal self cfg).2.length
          = self.subbodies.length) := by
  refine ⟨?_, ?_, ?_, ?_⟩
  · intro self cfg
    simp only [reflectionBuildMatrices]
    rw [if_pos (by simp)]
  · intro self cfg
    rfl
  · intro self cfg
    simp only [translationBuildMatrices]
    rw [if_pos (by simp)]
  · intro self cfg
    simp only [translationAccel]
    rw [fillFirstRow_log]
    simp only [List.nil_append, List.length_map, List.length_zip]
    rw [matrixBlocks_headD_length, accumulate0_length, List.length_map]
    simp

/-- C6: for every translation composite, block `(i, j)` of the accelerated
result equals block `(0, abs(j-i))` element-wise, in both S and V. -/
theorem C6_toeplitz_blocks (s : FloatingBody) (t : List ℚ) (n : Int)
    (h1 : 1 ≤ n) (h3 : t.length = 3) (cfg : Cfg) :
    ∀ comp rest, TranslationalSymmetry_init s t (.int n) = (.ok comp, rest) →
    ∀ i j p q, i < comp.subbodies.length → j < comp.subbodies.length →
      p < s.nb_faces → q < s.nb_faces →
      ((translationAccel kernel trunc emptyVal comp cfg).1.1
          (i * s.nb_faces + p) (j * s.nb_faces + q)
        = (translationAccel kernel trunc emptyVal comp cfg).1.1
          p (absDiff j i * s.nb_faces + q)) ∧
      ((translationAccel kernel trunc emptyVal comp cfg).1.2
          (i * s.nb_faces + p) (j * s.nb_faces + q)
        = (translationAccel kernel trunc emptyVal comp cfg).1.2
          p (absDiff j i * s.nb_faces + q)) := by
  intro comp rest hc i j p q hi hj hp hq
  have hf := (translation_init_uniform_faces s t n h1 h3 comp rest hc).1
  have hd : absDiff j i < comp.subbodies.length := by
    simp only [absDiff]
    omega
  have hL := translationAccel_entries kernel trunc emptyVal comp s.nb_faces hf cfg
    i j p q hi hj hp hq
  have hR := translationAccel_entries kernel trunc emptyVal comp s.nb_faces hf cfg
    0 (absDiff j i) p q (by omega) hd hp hq
  simp only [Nat.zero_mul, Nat.zero_add] at hR
  have habs : absDiff (absDiff j i) 0 = absDiff j i := by simp [absDiff]
  rw [habs] at hR
  exact ⟨hL.1.trans hR.1.symm, hL.2.trans hR.2.symm⟩

/-- C9: every in-range entry of the matrices produced by the accelerated
paths is a truncated (`np.complex64`-stored) value, whatever numeric type
the kernel produces. -/
theorem C9_single_precision_storage :
    (∀ (half : FloatingBody) (plane : Plane) (cfg : Cfg) (r c : Nat),
        r < (ReflectionSymmetry_init half plane).1.nb_faces →
        c < (ReflectionSymmetry_init half plane).1.nb_faces →
        (∃ a, (reflectionAccel kernel trunc emptyVal
            (ReflectionSymmetry_init half plane).1 cfg).1.1 r c = trunc a) ∧
        (∃ a, (reflectionAccel kernel trunc emptyVal
            (ReflectionSymmetry_init half plane).1 cfg).1.2 r c = trunc a)) ∧
    (∀ (s : FloatingBody) (t : List ℚ) (n : Int), 1 ≤ n → t.length = 3 →
      ∀ comp rest, TranslationalSymmetry_init s t (.int n) = (.ok comp, rest) →
      ∀ (cfg : Cfg) (r c : Nat), r < comp.nb_faces → c < comp.nb_faces →
        (∃ a, (translationAccel kernel trunc emptyVal comp cfg).1.1 r c = trunc a) ∧
        (∃ a, (translationAccel kernel trunc emptyVal comp cfg).1.2 r c = trunc a)) := by
  constructor
  · intro half plane cfg r c hr hc
    have hnf := reflection_nb_faces half plane
    rw [hnf] at hr hc
    rcases Nat.lt_or_ge r half.nb_faces with h1 | h1 <;>
      rcases Nat.lt_or_ge c half.nb_faces with h2 | h2
    · obtain ⟨e1, _, _, _, e5, _, _, _⟩ :=
        reflectionAccel_entries kernel trunc emptyVal (ReflectionSymmetry_init half plane).1 half.nb_faces
          (by rw [reflection_nb_faces]; omega) cfg r c h1 h2
      exact ⟨⟨_, e1⟩, ⟨_, e5⟩⟩
    · obtain ⟨_, e2, _, _, _, e6, _, _⟩ :=
        reflectionAccel_entries kernel trunc emptyVal (ReflectionSymmetry_init half plane).1 half.nb_faces
          (by rw [reflection_nb_faces]; omega) cfg r (c - half.nb_faces) h1 (by omega)
      have ec : c = half.nb_faces + (c - half.nb_faces) := by omega
      rw [ec]
      exact ⟨⟨_, e2⟩, ⟨_, e6⟩⟩
    · obtain ⟨_, _, e3, _, _, _, e7, _⟩ :=
        reflectionAccel_entries kernel trunc emptyVal (ReflectionSymmetry_init half plane).1 half.nb_faces
          (by rw [reflection_nb_faces]; omega) cfg (r - half.nb_faces) c (by omega) h2
      have er : r = half.nb_faces + (r - half.nb_faces) := by omega
      rw [er]
      exact ⟨⟨_, e3⟩, ⟨_, e7⟩⟩
    · obtain ⟨_, _, _, e4, _, _, _, e8⟩ :=
        reflectionAccel_entries kernel trunc emptyVal (ReflectionSymmetry_init half plane).1 half.nb_faces
          (by rw [reflection_nb_faces]; omega) cfg
          (r - half.nb_faces) (c - half.nb_faces) (by omega) (by omega)
      have er : r = half.nb_faces + (r - half.nb_faces) := by omega
      have ec : c = half.nb_faces + (c - half.nb_faces) := by omega
      rw [er, ec]
      exact ⟨⟨_, e4⟩, ⟨_, e8⟩⟩
  · intro s t n h1 h3 comp rest hcin cfg r c hr hc
    obtain ⟨hfaces, hlen⟩ := translation_init_uniform_faces s t n h1 h3 comp rest hcin
    have hnb : comp.nb_faces = comp.subbodies.length * s.nb_faces := by
      unfold SymmetricBody.nb_faces
      have hrep : comp.subbodies.map FloatingBody.nb_faces
          = List.replicate comp.subbodies.length s.nb_faces := by
        rw [← List.length_map comp.subbodies FloatingBody.nb_faces]
        apply List.eq_replicate_of_mem
        intro x hx
        obtain ⟨b, hb, rfl⟩ := List.mem_map.mp hx
        exact hfaces b hb
      rw [hrep, List.sum_replicate, smul_eq_mul]
    have hfpos : 0 < s.nb_faces := by
      rcases Nat.eq_zero_or_pos s.nb_faces with h0 | h0
      · rw [h0, Nat.mul_zero] at hnb
        omega
      · exact h0
    rw [hnb] at hr hc
    have hr' : r / s.nb_faces < comp.subbodies.length :=
      (Nat.div_lt_iff_lt_mul hfpos).mpr hr
    have hc' : c / s.nb_faces < comp.subbodies.length :=
      (Nat.div_lt_iff_lt_mul hfpos).mpr hc
    have er : r = r / s.nb_faces * s.nb_faces + r % s.nb_faces := by
      rw [Nat.mul_comm]
      exact (Nat.div_add_mod r s.nb_faces).symm
    have ec : c = c / s.nb_faces * s.nb_faces + c % s.nb_faces := by
      rw [Nat.mul_comm]
      exact (Nat.div_add_mod c s.nb_faces).symm
    obtain ⟨E1, E2⟩ := translationAccel_entries kernel trunc emptyVal comp s.nb_faces
      hfaces cfg (r / s.nb_faces) (c / s.nb_faces) (r % s.nb_faces) (c % s.nb_faces)
      hr' hc' (Nat.mod_lt _ hfpos) (Nat.mod_lt _ hfpos)
    rw [er, ec]
    exact ⟨⟨_, E1⟩, ⟨_, E2⟩⟩

end BuildProofs

/-! ### Witness instantiations at concrete inputs -/

theorem C2_fallback_delegation_raises_witness :
    translationBuildMatrices exKernel exTrunc 0 exComp exComp true ()
      = .error .nameError_body :=
  C2_fallback_delegation_raises exKernel exTrunc 0 exComp exComp true () (by simp)

theorem C7_reflection_block_copy_witness :
    ((reflectionAccel exKernel exTrunc 0 (ReflectionSymmetry_init exHalf exPlane).1 ()).1.1
        (exHalf.nb_faces + 1) 0
      = (reflectionAccel exKernel exTrunc 0 (ReflectionSymmetry_init exHalf exPlane).1 ()).1.1
        1 (exHalf.nb_faces + 0)) ∧
    ((reflectionAccel exKernel exTrunc 0 (ReflectionSymmetry_init exHalf exPlane).1 ()).1.1
        (exHalf.nb_faces + 1) (exHalf.nb_faces + 0)
      = (reflectionAccel exKernel exTrunc 0 (ReflectionSymmetry_init exHalf exPlane).1 ()).1.1
        1 0) ∧
    ((reflectionAccel exKernel exTrunc 0 (ReflectionSymmetry_init exHalf exPlane).1 ()).1.2
        (exHalf.nb_faces + 1) 0
      = (reflectionAccel exKernel exTrunc 0 (ReflectionSymmetry_init exHalf exPlane).1 ()).1.2
        1 (exHalf.nb_faces + 0)) ∧
    ((reflectionAccel exKernel exTrunc 0 (ReflectionSymmetry_init exHalf exPlane).1 ()).1.2
        (exHalf.nb_faces + 1) (exHalf.nb_faces + 0)
      = (reflectionAccel exKernel exTrunc 0 (ReflectionSymmetry_init exHalf exPlane).1 ()).1.2
        1 0) :=
  C7_reflection_block_copy exKernel exTrunc 0 exHalf exPlane () 1 0 (by decide) (by decide)

theorem C8_translation_generator_sequence_witness :
    exComp.subbodies.length = (2 : Int).toNat + 1 ∧
    (exComp.subbodies.getD 2 default).name ≠ exSlice.name := by
  have h := C8_translation_generator_sequence exSlice exVec 2 (by decide) (by decide)
    exComp (mutatedSlice exSlice 2) (by rfl)
  exact ⟨h.1, (h.2.2.2.2.2 2 (by decide) (by decide)).2.2.2⟩

theorem C6_toeplitz_blocks_witness :
    ((translationAccel exKernel exTrunc 0 exComp ()).1.1
        (2 * exSlice.nb_faces + 1) (0 * exSlice.nb_faces + 0)
      = (translationAccel exKernel exTrunc 0 exComp ()).1.1
        1 (absDiff 0 2 * exSlice.nb_faces + 0)) ∧
    ((translationAccel exKernel exTrunc 0 exComp ()).1.2
        (2 * exSlice.nb_faces + 1) (0 * exSlice.nb_faces + 0)
      = (translationAccel exKernel exTrunc 0 exComp ()).1.2
        1 (absDiff 0 2 * exSlice.nb_faces + 0)) :=
  C6_toeplitz_blocks exKernel exTrunc 0 exSlice exVec 2 (by decide) (by decide) ()
    exComp (mutatedSlice exSlice 2) (by rfl) 2 0 1 0
    (by decide) (by decide) (by decide) (by decide)

theorem C9_single_precision_storage_witness :
    (∃ a, (reflectionAccel exKernel exTrunc 0
        (ReflectionSymmetry_init exHalf exPlane).1 ()).1.1 3 0 = exTrunc a) ∧
    (∃ a, (reflectionAccel exKernel exTrunc 0
        (ReflectionSymmetry_init exHalf exPlane).1 ()).1.2 3 0 = exTrunc a) :=
  (C9_single_precision_storage exKernel exTrunc 0).1 exHalf exPlane () 3 0
    (by decide) (by decide)

theorem C10_reflection_partition_witness :
    ((reflTopLeft exReflComp.nb_faces).mem 1 3 ∨
      (reflTopRight exReflComp.nb_faces).mem 1 3 ∨
      (reflBottomLeft exReflComp.nb_faces).mem 1 3 ∨
      (reflBottomRight exReflComp.nb_faces).mem 1 3) ∧
    ¬((reflTopLeft exReflComp.nb_faces).mem 1 3 ∧
      (reflTopRight exReflComp.nb_faces).mem 1 3) ∧
    ¬((reflTopLeft exReflComp.nb_faces).mem 1 3 ∧
      (reflBottomLeft exReflComp.nb_faces).mem 1 3) ∧
    ¬((reflTopLeft exReflComp.nb_faces).mem 1 3 ∧
      (reflBottomRight exReflComp.nb_faces).mem 1 3) ∧
    ¬((reflTopRight exReflComp.nb_faces).mem 1 3 ∧
      (reflBottomLeft exReflComp.nb_faces).mem 1 3) ∧
    ¬((reflTopRight exReflComp.nb_faces).mem 1 3 ∧
      (reflBottomRight exReflComp.nb_faces).mem 1 3) ∧
    ¬((reflBottomLeft exReflComp.nb_faces).mem 1 3 ∧
      (reflBottomRight exReflComp.nb_faces).mem 1 3) :=
  (C10_reflection_partition exHalf exPlane exReflComp rfl).2.2.2.2 1 3
    (by decide) (by decide)

end Capytaine
